import Mathlib

/-
  Verification development for the Olive token contract (src/olive.hpp,
  src/olive.cpp): a fungible token with a reputation registry and a UBI
  accrual engine, built on the eosio.token contract.

  Shallow embedding notes.
  * The contract's tables (`accounts`, `stat`, `persons`) are multi_index
    tables with unique 64-bit primary keys.  All three are keyed by the raw
    symbol code and scoped by the owner account (for `accounts`/`persons`)
    or the symbol (for `stat`).  Since every operation touches the records
    of a single symbol only, the state below models the slice of the store
    belonging to one fixed symbol: one optional supply record, one balance
    row per account, one person row per account.  Tables are association
    lists with unique keys; `tset` mirrors "modify if found, emplace
    otherwise" positioning, `terase` removes the row.
  * Machine integers: `asset.amount` and supplies are int64 (the asset
    class bounds them by ±(2^62-1), enforced by `is_valid` at the borders,
    so the int64 arithmetic on reachable states never wraps and is modelled
    on ℤ); `person.score` is int32 and the stores through it truncate
    (`toInt32`); `time_type` is uint16 and stores through it reduce mod
    2^16.  `get_today()` casts seconds/86400 to uint16, so the ambient day
    `Env.today` is < 2^16 on real executions.
  * Authorization (`require_auth`) is modelled by a set of authorized
    principals carried in the environment; `require_recipient` has no state
    effect and is dropped; RAM payers only decide billing, not state, and
    are dropped.  `log_claim` in this revision only calls `eosio::print`
    and is dropped.  Symbol validity / precision-match checks always pass
    in the single-symbol model and are dropped.
  * Failures (`check`, `require_auth`, `get` on a missing row, and the
    multi_index guard that erasing requires a present row) abort the whole
    action with no partial writes; actions are `Except String` values.
-/

set_option maxRecDepth 16000

namespace Olive

/-- A keyed table (eosio multi_index slice): association list with unique
    primary keys.  `tlookup` is `find`. -/
def tlookup {α : Type} : List (Nat × α) → Nat → Option α
  | [], _ => none
  | (k, v) :: t, n => if k = n then some v else tlookup t n

/-- `modify` the row if present, `emplace` (append) otherwise. -/
def tset {α : Type} : List (Nat × α) → Nat → α → List (Nat × α)
  | [], n, v => [(n, v)]
  | (k, w) :: t, n, v => if k = n then (k, v) :: t else (k, w) :: tset t n v

/-- `erase` the row (the callers guarantee presence; the guard that the
    iterator is not `end` lives in the actions that erase). -/
def terase {α : Type} : List (Nat × α) → Nat → List (Nat × α)
  | [], _ => []
  | (k, w) :: t, n => if k = n then t else (k, w) :: terase t n

/-- `currency_stats` row: current supply, maximum supply, issuer account. -/
structure CurrencyStats where
  supply : Int
  maxSupply : Int
  issuer : Nat
deriving Repr, DecidableEq

/-- `person` row: reputation score (int32), UBI claim pointer (uint16 day
    number), proof-of-personhood string. -/
structure Person where
  score : Int
  lastClaimDay : Nat
  pop : String
deriving Repr, DecidableEq

/-- The per-symbol contract state: optional supply record, balance rows and
    person rows keyed by the owner account's 64-bit name value. -/
structure OliveState where
  stat : Option CurrencyStats
  balances : List (Nat × Int)
  persons : List (Nat × Person)
deriving Repr, DecidableEq

/-- Ambient execution environment: the contract account (`_self`), the
    current day (`get_today()`, a uint16 on real executions), the symbol's
    decimal precision, the principals whose authority the transaction
    carries, and the host's account-existence oracle. -/
structure Env where
  self : Nat
  today : Nat
  prec : Nat
  auths : List Nat
  isAcct : Nat → Bool

/-- `get_precision_multiplier`: 10^precision. -/
def pmulNat (env : Env) : Nat := 10 ^ env.prec

/-- `asset::max_amount = 2^62 - 1`. -/
def maxAmount : Int := 2 ^ 62 - 1

/-- `asset::is_valid()` on the amount: `-max_amount ≤ amount ≤ max_amount`. -/
abbrev assetValid (a : Int) : Prop := -maxAmount ≤ a ∧ a ≤ maxAmount

/-- `is_empty_pop`: the empty string and the reserved sentinel both mean
    "no proof-of-personhood asserted". -/
abbrev isEmptyPop (pop : String) : Prop := pop = "" ∨ pop = "[DEFAULT]"

/-- Reduction of an integer into the signed 32-bit range (x % 2^32, recentred),
    as performed by a C++ store into an `int32_t`. -/
def toInt32 (x : Int) : Int := (x + 2147483648) % 4294967296 - 2147483648

/-- `INT32_MAX = 2^31 - 1`. -/
def int32max : Int := 2147483647

/-- `INT32_MIN = -2^31`. -/
def int32min : Int := -2147483648

/-- `endorse_minimum_score` (whole currency units). -/
def endorse_minimum_score : Int := 10

/-- `first_endorsement_fee` (whole currency units). -/
def first_endorsement_fee : Int := 1

/-- `sub_balance(owner, value)`: `get` the row (abort if absent), abort on
    overdraw, else debit it. -/
def subBalance (owner : Nat) (value : Int) (s : OliveState) : Except String OliveState :=
  match tlookup s.balances owner with
  | none => .error "no balance object found"
  | some bal =>
    if value ≤ bal then .ok { s with balances := tset s.balances owner (bal - value) }
    else .error "overdrawn balance"

/-- `add_balance(owner, value, ram_payer)`: emplace the row if absent, else
    credit it.  (The RAM payer has no state effect.) -/
def addBalance (owner : Nat) (value : Int) (s : OliveState) : OliveState :=
  match tlookup s.balances owner with
  | none => { s with balances := tset s.balances owner value }
  | some bal => { s with balances := tset s.balances owner (bal + value) }

/-- The `statstable.modify(st, ...){ s.supply -= q }` step shared by
    non-privileged endorsements and drains (burning the spent tokens). -/
def burnSupply (q : Int) (s : OliveState) : OliveState :=
  match s.stat with
  | none => s
  | some st => { s with stat := some { st with supply := st.supply - q } }

/-- The endorser/drainer gate of `try_endorse`/`try_drain`: the actor must
    have a person row, `score ≥ endorse_minimum_score` whole units, and a
    non-empty proof-of-personhood.  Returns the abort message, if any. -/
def endorserGate (env : Env) (frm : Nat) (s : OliveState) : Option String :=
  match tlookup s.persons frm with
  | none => some "from account has not been endorsed yet"
  | some fp =>
    if ¬ (endorse_minimum_score * (pmulNat env : Int) ≤ fp.score) then
      some "from account score too low"
    else if isEmptyPop fp.pop then some "from account has no proof-of-personhood set"
    else none

/-- The minting branch of `try_ubi_claim`, entered when
    `last_claim_day < today`: one token per day, at most 360 accumulated
    past days (older income is forfeited), plus the current day; capped by
    the remaining supply headroom; the claim pointer advances by the
    forfeited days plus the days actually minted. -/
def ubiMint (env : Env) (frm : Nat) (st : CurrencyStats) (p : Person) (s : OliveState) :
    OliveState :=
  let pending : Nat := env.today - p.lastClaimDay - 1
  let lost : Nat := if 360 < pending then (pending - 360) % 65536 else 0
  let days : Nat := if 360 < pending then 360 else pending
  let rawClaim : Int := ((days : Int) + 1) * (pmulNat env : Int)
  let available : Int := st.maxSupply - st.supply
  let capped : Int := if available < rawClaim then available else rawClaim
  if 0 < capped then
    let delta : Nat := (lost + capped.toNat / pmulNat env) % 65536
    addBalance frm capped
      { s with
        stat := some { st with supply := st.supply + capped },
        persons := tset s.persons frm ⟨p.score, (p.lastClaimDay + delta) % 65536, p.pop⟩ }
  else s

/-- `try_ubi_claim(from, sym, ..., silent)`: silently do nothing when there
    is no person row, when the score is non-positive (unless `silent`, the
    forced settlement during a score-crossing drain), when no
    proof-of-personhood is asserted, or when the pointer is not in the
    past; otherwise mint. -/
def tryUbiClaim (env : Env) (silent : Bool) (frm : Nat) (s : OliveState) : OliveState :=
  match s.stat with
  | none => s
  | some st =>
    match tlookup s.persons frm with
    | none => s
    | some p =>
      if p.score ≤ 0 ∧ silent = false then s
      else if isEmptyPop p.pop then s
      else if p.lastClaimDay < env.today then ubiMint env frm st p s
      else s

/-- `try_endorse(from, to, quantity, payer, ...)`.  `to == _self` aliases
    self-endorsement; `from == _self` is the privileged path (no gate, no
    burn).  First endorsement creates the person row (score stored through
    int32; the non-privileged path deducts the first-endorsement fee and
    requires the quantity to exceed it) and opens a zero balance row if
    absent; a later endorsement raises the score, saturating at
    `INT32_MAX`, and restarts the claim pointer when the score crosses up
    through zero. -/
def tryEndorse (env : Env) (frm to0 : Nat) (q : Int) (s : OliveState) :
    Except String OliveState :=
  if ¬ (0 < q) then .error "must burn a positive quantity to endorse an account" else
  let toA := if to0 = env.self then frm else to0
  let priv := frm = env.self
  match (if priv then none else endorserGate env frm s) with
  | some e => .error e
  | none =>
    match tlookup s.persons toA with
    | none =>
      let fee : Int := first_endorsement_fee * (pmulNat env : Int)
      if ¬ priv ∧ ¬ (fee < q) then
        .error "first endorsement quantity must be greater than the first endorsement fee"
      else
        let sc : Int := if priv then toInt32 q else toInt32 (toInt32 q - fee)
        let s1 := { s with persons := tset s.persons toA ⟨sc, (env.today + 1) % 65536, "[DEFAULT]"⟩ }
        let s2 := match tlookup s1.balances toA with
                  | none => { s1 with balances := tset s1.balances toA 0 }
                  | some _ => s1
        if priv then .ok s2 else subBalance frm q (burnSupply q s2)
    | some tp =>
      let newScore := toInt32 (min int32max (tp.score + q))
      let newLast := if tp.score ≤ 0 ∧ 0 < newScore
                     then max ((env.today + 65535) % 65536) tp.lastClaimDay
                     else tp.lastClaimDay
      let s1 := { s with persons := tset s.persons toA ⟨newScore, newLast, tp.pop⟩ }
      if priv then .ok s1 else subBalance frm q (burnSupply q s1)

/-- `try_drain(from, to, quantity, ...)`: same aliasing/gating as
    `try_endorse`; the target must have a person row; the score drops,
    saturating at `INT32_MIN`; a drain that crosses the score from
    positive to non-positive forces a silent UBI settlement for the target
    before the burn. -/
def tryDrain (env : Env) (frm to0 : Nat) (q : Int) (s : OliveState) :
    Except String OliveState :=
  if ¬ (0 < q) then .error "must burn a positive quantity to drain an account" else
  let toA := if to0 = env.self then frm else to0
  let priv := frm = env.self
  match (if priv then none else endorserGate env frm s) with
  | some e => .error e
  | none =>
    match tlookup s.persons toA with
    | none => .error "to account has not been endorsed yet"
    | some tp =>
      let newScore := toInt32 (max int32min (tp.score - q))
      let s1 := { s with persons := tset s.persons toA ⟨newScore, tp.lastClaimDay, tp.pop⟩ }
      let s2 := if 0 < tp.score ∧ newScore ≤ 0 then tryUbiClaim env true toA s1 else s1
      if priv then .ok s2 else subBalance frm q (burnSupply q s2)

/-- `try_pop(from, to, new_pop, quantity)`: `to` must be `from` or the
    contract; the sentinel is reserved; the caller must already have a
    person row; stores the new proof-of-personhood. -/
def tryPop (env : Env) (frm toA : Nat) (newPop : String) (s : OliveState) :
    Except String OliveState :=
  if ¬ (toA = frm ∨ toA = env.self) then
    .error "from and to must be set to self or the contract account when updating proof-of-personhood"
  else if newPop = "[DEFAULT]" then .error "reserved proof-of-personhood value"
  else
    match tlookup s.persons frm with
    | none => .error "this account has not been endorsed yet"
    | some p => .ok { s with persons := tset s.persons frm ⟨p.score, p.lastClaimDay, newPop⟩ }

/-- `transfer(from, to, quantity, memo)`: the command router.  Reserved
    memo prefixes dispatch to pop/endorse/drain; otherwise the quantity
    must be positive, a transfer to self returns with no effect, and a
    plain transfer settles the sender's UBI and then moves the quantity. -/
def transfer (env : Env) (frm toA : Nat) (q : Int) (memo : String) (s : OliveState) :
    Except String OliveState :=
  if frm ∉ env.auths then .error "missing required authority" else
  if ¬ env.isAcct toA then .error "to account does not exist" else
  match s.stat with
  | none => .error "unable to find key"
  | some _ =>
    if ¬ assetValid q then .error "invalid quantity" else
    if ¬ (memo.length ≤ 256) then .error "memo has more than 256 bytes" else
    if memo = "--pop" then tryPop env frm toA "" s else
    if memo.take 6 = "--pop " then tryPop env frm toA (memo.drop 6) s else
    if memo = "--endorse" ∨ memo.take 10 = "--endorse " then tryEndorse env frm toA q s else
    if memo = "--drain" ∨ memo.take 8 = "--drain " then tryDrain env frm toA q s else
    if ¬ (0 < q) then .error "must transfer positive quantity" else
    if frm = toA then .ok s else
    match subBalance frm q (tryUbiClaim env false frm s) with
    | .error e => .error e
    | .ok s2 => .ok (addBalance toA q s2)

/-- `create(issuer, maximum_supply)`: authorized by the contract; positive
    valid maximum; the symbol must be fresh; the supply starts at zero. -/
def create (env : Env) (issuer : Nat) (maxSupply : Int) (s : OliveState) :
    Except String OliveState :=
  if env.self ∉ env.auths then .error "missing required authority" else
  if ¬ assetValid maxSupply then .error "invalid supply" else
  if ¬ (0 < maxSupply) then .error "max-supply must be positive" else
  match s.stat with
  | some _ => .error "token with symbol already exists"
  | none => .ok { s with stat := some ⟨0, maxSupply, issuer⟩ }

/-- `issue(to, quantity, memo)`: authorized by the issuer; bounded by the
    remaining headroom; credits the issuer and, when `to` differs, chains
    an inline `transfer` (carrying the issuer's authority and the same
    memo, hence full command routing). -/
def issue (env : Env) (toA : Nat) (q : Int) (memo : String) (s : OliveState) :
    Except String OliveState :=
  if ¬ (memo.length ≤ 256) then .error "memo has more than 256 bytes" else
  match s.stat with
  | none => .error "token with symbol does not exist, create token before issue"
  | some st =>
    if st.issuer ∉ env.auths then .error "missing required authority" else
    if ¬ assetValid q then .error "invalid quantity" else
    if ¬ (0 < q) then .error "must issue positive quantity" else
    if ¬ (q ≤ st.maxSupply - st.supply) then .error "quantity exceeds available supply" else
    let s2 := addBalance st.issuer q { s with stat := some { st with supply := st.supply + q } }
    if toA ≠ st.issuer then
      transfer { env with auths := [st.issuer] } st.issuer toA q memo s2
    else .ok s2

/-- `retire(quantity, memo)`.  The source first runs the conditional
    `require_auth` guarded by `issuer != _self` and then, unconditionally,
    a second `require_auth(st.issuer)`; both lines are kept. -/
def retire (env : Env) (q : Int) (memo : String) (s : OliveState) :
    Except String OliveState :=
  if ¬ (memo.length ≤ 256) then .error "memo has more than 256 bytes" else
  match s.stat with
  | none => .error "token with symbol does not exist"
  | some st =>
    if st.issuer ≠ env.self ∧ st.issuer ∉ env.auths then .error "missing required authority" else
    if st.issuer ∉ env.auths then .error "missing required authority" else
    if ¬ assetValid q then .error "invalid quantity" else
    if ¬ (0 < q) then .error "must retire positive quantity" else
    subBalance st.issuer q { s with stat := some { st with supply := st.supply - q } }

/-- `open(owner, symbol, ram_payer)`: authorized by the payer; the symbol
    must exist; emplaces a zero balance row if absent. -/
def openBalance (env : Env) (owner payer : Nat) (s : OliveState) : Except String OliveState :=
  if payer ∉ env.auths then .error "missing required authority" else
  match s.stat with
  | none => .error "symbol does not exist"
  | some _ =>
    .ok (match tlookup s.balances owner with
         | none => { s with balances := tset s.balances owner 0 }
         | some _ => s)

/-- `close(owner, symbol)`: authorized by the owner; the balance row must
    exist and be zero; it is erased, and then the person row iterator is
    erased.  The source does not test `find`'s result before that second
    erase, and the host multi_index aborts the action when handed the end
    iterator, so the erase demands a present person row. -/
def close (env : Env) (owner : Nat) (s : OliveState) : Except String OliveState :=
  if owner ∉ env.auths then .error "missing required authority" else
  match tlookup s.balances owner with
  | none => .error "Balance row already deleted or never existed. Action won't have any effect."
  | some bal =>
    if ¬ (bal = 0) then .error "Cannot close because the balance is not zero." else
    let s1 := { s with balances := terase s.balances owner }
    match tlookup s1.persons owner with
    | none => .error "cannot pass end iterator to erase"
    | some _ => .ok { s1 with persons := terase s1.persons owner }

/-- The standalone `endorse` action (same checks as `transfer`, then
    `try_endorse`). -/
def endorse (env : Env) (frm toA : Nat) (q : Int) (memo : String) (s : OliveState) :
    Except String OliveState :=
  if frm ∉ env.auths then .error "missing required authority" else
  if ¬ env.isAcct toA then .error "to account does not exist" else
  match s.stat with
  | none => .error "unable to find key"
  | some _ =>
    if ¬ assetValid q then .error "invalid quantity" else
    if ¬ (memo.length ≤ 256) then .error "memo has more than 256 bytes" else
    tryEndorse env frm toA q s

/-- The standalone `drain` action. -/
def drain (env : Env) (frm toA : Nat) (q : Int) (memo : String) (s : OliveState) :
    Except String OliveState :=
  if frm ∉ env.auths then .error "missing required authority" else
  if ¬ env.isAcct toA then .error "to account does not exist" else
  match s.stat with
  | none => .error "unable to find key"
  | some _ =>
    if ¬ assetValid q then .error "invalid quantity" else
    if ¬ (memo.length ≤ 256) then .error "memo has more than 256 bytes" else
    tryDrain env frm toA q s

/-- `setpop(owner, pop)`: hard-coded to the one symbol; the sentinel is
    reserved; the owner must already have a person row. -/
def setpop (env : Env) (owner : Nat) (pop : String) (s : OliveState) :
    Except String OliveState :=
  if ¬ (pop.length ≤ 256) then .error "pop has more than 256 bytes" else
  if pop = "[DEFAULT]" then .error "reserved proof-of-personhood value" else
  if owner ∉ env.auths then .error "missing required authority" else
  match tlookup s.persons owner with
  | none => .error "this account has not been endorsed yet"
  | some p => .ok { s with persons := tset s.persons owner ⟨p.score, p.lastClaimDay, pop⟩ }

/-- The contract's public operation surface, for stating whole-system
    invariants. -/
inductive Op where
  | createOp (issuer : Nat) (maxSupply : Int)
  | issueOp (toA : Nat) (q : Int) (memo : String)
  | retireOp (q : Int) (memo : String)
  | transferOp (frm toA : Nat) (q : Int) (memo : String)
  | openOp (owner payer : Nat)
  | closeOp (owner : Nat)
  | endorseOp (frm toA : Nat) (q : Int) (memo : String)
  | drainOp (frm toA : Nat) (q : Int) (memo : String)
  | setpopOp (owner : Nat) (pop : String)

/-- One completed action. -/
def step (env : Env) (op : Op) (s : OliveState) : Except String OliveState :=
  match op with
  | .createOp issuer m => create env issuer m s
  | .issueOp toA q memo => issue env toA q memo s
  | .retireOp q memo => retire env q memo s
  | .transferOp frm toA q memo => transfer env frm toA q memo s
  | .openOp owner payer => openBalance env owner payer s
  | .closeOp owner => close env owner s
  | .endorseOp frm toA q memo => endorse env frm toA q memo s
  | .drainOp frm toA q memo => drain env frm toA q memo s
  | .setpopOp owner pop => setpop env owner pop s

/-- The sum of the amounts of a list of balance rows. -/
def sumPairs (l : List (Nat × Int)) : Int := (l.map (·.2)).sum

/-- The sum of all balance-row amounts. -/
def sumBal (s : OliveState) : Int := sumPairs s.balances

/-- The supply record's current supply (zero before `create`). -/
def supplyOf (s : OliveState) : Int :=
  match s.stat with
  | none => 0
  | some st => st.supply

/-- The conservation invariant: `Σ balances == current_supply`. -/
abbrev Conserved (s : OliveState) : Prop := sumBal s = supplyOf s

/-! ### Table lemmas -/

theorem tlookup_tset_self {α : Type} (l : List (Nat × α)) (k : Nat) (v : α) :
    tlookup (tset l k v) k = some v := by
  induction l with
  | nil => simp [tset, tlookup]
  | cons hd t ih =>
    obtain ⟨k', v'⟩ := hd
    by_cases hk : k' = k
    · simp [tset, hk, tlookup]
    · simp [tset, hk, tlookup, ih]

theorem tlookup_tset_ne {α : Type} (l : List (Nat × α)) (k n : Nat) (v : α) (h : n ≠ k) :
    tlookup (tset l k v) n = tlookup l n := by
  induction l with
  | nil => simp [tset, tlookup, Ne.symm h]
  | cons hd t ih =>
    obtain ⟨k', v'⟩ := hd
    by_cases hk : k' = k
    · subst hk
      simp [tset, tlookup, Ne.symm h]
    · simp [tset, hk, tlookup, ih]

theorem sumPairs_cons (p : Nat × Int) (t : List (Nat × Int)) :
    sumPairs (p :: t) = p.2 + sumPairs t := by
  simp [sumPairs]

theorem sumPairs_tset_some (l : List (Nat × Int)) (k : Nat) (v w : Int)
    (h : tlookup l k = some v) : sumPairs (tset l k w) = sumPairs l - v + w := by
  induction l with
  | nil => simp [tlookup] at h
  | cons hd t ih =>
    obtain ⟨k', v'⟩ := hd
    by_cases hk : k' = k
    · simp only [tlookup, if_pos hk, Option.some.injEq] at h
      subst h
      simp only [tset, if_pos hk, sumPairs_cons]
      ring
    · simp only [tlookup, if_neg hk] at h
      simp only [tset, if_neg hk, sumPairs_cons, ih h]
      ring

theorem sumPairs_tset_none (l : List (Nat × Int)) (k : Nat) (w : Int)
    (h : tlookup l k = none) : sumPairs (tset l k w) = sumPairs l + w := by
  induction l with
  | nil => simp [tset, sumPairs]
  | cons hd t ih =>
    obtain ⟨k', v'⟩ := hd
    by_cases hk : k' = k
    · simp [tlookup, if_pos hk] at h
    · simp only [tlookup, if_neg hk] at h
      simp only [tset, if_neg hk, sumPairs_cons, ih h]
      ring

theorem sumPairs_terase_some (l : List (Nat × Int)) (k : Nat) (v : Int)
    (h : tlookup l k = some v) : sumPairs (terase l k) = sumPairs l - v := by
  induction l with
  | nil => simp [tlookup] at h
  | cons hd t ih =>
    obtain ⟨k', v'⟩ := hd
    by_cases hk : k' = k
    · simp only [tlookup, if_pos hk, Option.some.injEq] at h
      subst h
      simp only [terase, if_pos hk, sumPairs_cons]
      ring
    · simp only [tlookup, if_neg hk] at h
      simp only [terase, if_neg hk, sumPairs_cons, ih h]
      ring

/-! ### Component lemmas: balances, burning, the endorser gate -/

theorem addBalance_stat (o : Nat) (v : Int) (s : OliveState) :
    (addBalance o v s).stat = s.stat := by
  unfold addBalance
  split <;> rfl

theorem addBalance_persons (o : Nat) (v : Int) (s : OliveState) :
    (addBalance o v s).persons = s.persons := by
  unfold addBalance
  split <;> rfl

theorem addBalance_sum (o : Nat) (v : Int) (s : OliveState) :
    sumBal (addBalance o v s) = sumBal s + v := by
  unfold addBalance sumBal
  split
  next hb => simpa using sumPairs_tset_none s.balances o v hb
  next bal hb =>
    have h2 := sumPairs_tset_some s.balances o bal (bal + v) hb
    simp only [h2]
    ring

theorem addBalance_lookup_self (o : Nat) (v : Int) (s : OliveState) :
    tlookup (addBalance o v s).balances o
      = some ((tlookup s.balances o).getD 0 + v) := by
  unfold addBalance
  split
  next hb => simpa [hb] using tlookup_tset_self s.balances o v
  next bal hb => simpa [hb] using tlookup_tset_self s.balances o (bal + v)

theorem addBalance_lookup_ne (o : Nat) (v : Int) (s : OliveState) (n : Nat) (hn : n ≠ o) :
    tlookup (addBalance o v s).balances n = tlookup s.balances n := by
  unfold addBalance
  split <;> simpa using tlookup_tset_ne s.balances o n _ hn

theorem subBalance_ok (o : Nat) (v : Int) (s s' : OliveState)
    (h : subBalance o v s = .ok s') :
    s'.stat = s.stat ∧ s'.persons = s.persons ∧ sumBal s' = sumBal s - v := by
  unfold subBalance at h
  split at h
  · cases h
  next bal hb =>
    split at h
    · cases h
      refine ⟨rfl, rfl, ?_⟩
      have h2 := sumPairs_tset_some s.balances o bal (bal - v) hb
      simp only [sumBal, h2]
      ring
    · cases h

theorem subBalance_lookup_ne (o : Nat) (v : Int) (s s' : OliveState) (n : Nat)
    (hn : n ≠ o) (h : subBalance o v s = .ok s') :
    tlookup s'.balances n = tlookup s.balances n := by
  unfold subBalance at h
  split at h
  · cases h
  next bal hb =>
    split at h
    · cases h
      simpa using tlookup_tset_ne s.balances o n _ hn
    · cases h

theorem burnSupply_balances (q : Int) (s : OliveState) :
    (burnSupply q s).balances = s.balances := by
  unfold burnSupply
  split <;> rfl

theorem burnSupply_persons (q : Int) (s : OliveState) :
    (burnSupply q s).persons = s.persons := by
  unfold burnSupply
  split <;> rfl

theorem burnSupply_stat (q : Int) (s : OliveState) (st : CurrencyStats)
    (h : s.stat = some st) :
    (burnSupply q s).stat = some { st with supply := st.supply - q } := by
  unfold burnSupply
  rw [h]

/-- The burn-then-debit tail of a non-privileged endorse/drain preserves
    conservation. -/
theorem burnSub_conserved (frm : Nat) (q : Int) {s s' : OliveState} {st : CurrencyStats}
    (h : subBalance frm q (burnSupply q s) = .ok s') (hst : s.stat = some st)
    (hc : Conserved s) : Conserved s' := by
  obtain ⟨h1, _, h3⟩ := subBalance_ok _ _ _ _ h
  have hb : sumBal (burnSupply q s) = sumBal s := by
    simp [sumBal, burnSupply_balances]
  have hsupp : supplyOf s' = supplyOf s - q := by
    simp [supplyOf, h1, burnSupply_stat q s st hst, hst]
  simp only [Conserved] at hc ⊢
  rw [h3, hb, hsupp, hc]

/-! ### Conservation through each component -/

theorem conserved_open_zero (stA : Option CurrencyStats) (bal : List (Nat × Int))
    (pers pers2 : List (Nat × Person)) (toA : Nat) (hb : tlookup bal toA = none)
    (hc : Conserved ⟨stA, bal, pers⟩) : Conserved ⟨stA, tset bal toA 0, pers2⟩ := by
  simp only [Conserved, sumBal, supplyOf] at hc ⊢
  rw [sumPairs_tset_none bal toA 0 hb, add_zero]
  exact hc

theorem ubiMint_conserved (env : Env) (f : Nat) (st : CurrencyStats) (p : Person)
    (s : OliveState) (hst : s.stat = some st) (hc : Conserved s) :
    Conserved (ubiMint env f st p s) := by
  unfold ubiMint
  lift_lets
  intro pending lost days rawClaim available capped delta
  split
  · simp only [Conserved]
    rw [addBalance_sum]
    simp only [supplyOf, addBalance_stat, sumBal]
    simp only [Conserved, sumBal, supplyOf, hst] at hc
    rw [hc]
  · exact hc

theorem ubiMint_stat_isSome (env : Env) (f : Nat) (st : CurrencyStats) (p : Person)
    (s : OliveState) (st0 : CurrencyStats) (hst : s.stat = some st0) :
    ∃ st', (ubiMint env f st p s).stat = some st' := by
  unfold ubiMint
  lift_lets
  intro pending lost days rawClaim available capped delta
  split
  · exact ⟨_, by rw [addBalance_stat]⟩
  · exact ⟨st0, hst⟩

theorem tryUbiClaim_conserved (env : Env) (b : Bool) (f : Nat) (s : OliveState)
    (hc : Conserved s) : Conserved (tryUbiClaim env b f s) := by
  unfold tryUbiClaim
  split
  · exact hc
  next st hst =>
    split
    · exact hc
    next p hp =>
      split
      · exact hc
      split
      · exact hc
      split
      · exact ubiMint_conserved env f st p s hst hc
      · exact hc

theorem tryUbiClaim_stat_isSome (env : Env) (b : Bool) (f : Nat) (s : OliveState)
    (st : CurrencyStats) (hst : s.stat = some st) :
    ∃ st', (tryUbiClaim env b f s).stat = some st' := by
  unfold tryUbiClaim
  split
  · exact ⟨st, hst⟩
  next st0 hst0 =>
    split
    · exact ⟨st0, hst0⟩
    next p hp =>
      split
      · exact ⟨st0, hst0⟩
      split
      · exact ⟨st0, hst0⟩
      split
      · exact ubiMint_stat_isSome env f st0 p s st0 hst0
      · exact ⟨st0, hst0⟩

theorem tryPop_ok (env : Env) (frm toA : Nat) (np : String) (s s' : OliveState)
    (h : tryPop env frm toA np s = .ok s') :
    s'.stat = s.stat ∧ s'.balances = s.balances := by
  unfold tryPop at h
  split at h
  · cases h
  split at h
  · cases h
  split at h
  · cases h
  · cases h
    exact ⟨rfl, rfl⟩

theorem tryEndorse_conserved (env : Env) (frm to0 : Nat) (q : Int) (s s' : OliveState)
    (st : CurrencyStats) (hst : s.stat = some st)
    (h : tryEndorse env frm to0 q s = .ok s') (hc : Conserved s) : Conserved s' := by
  simp only [tryEndorse] at h
  split at h
  · cases h
  split at h
  · cases h
  split at h
  next hp =>
    -- creation branch
    split at h
    · cases h
    split at h
    next hpriv =>
      -- privileged: no burn
      split at h
      next hb =>
        cases h
        exact conserved_open_zero s.stat s.balances s.persons _ _ hb hc
      next bal hb =>
        cases h
        exact hc
    next hpriv =>
      -- non-privileged: burn the endorsement quantity
      split at h
      next hb =>
        exact burnSub_conserved frm q h hst
          (conserved_open_zero s.stat s.balances s.persons _ _ hb hc)
      next bal hb =>
        exact burnSub_conserved frm q h hst hc
  next tp hp =>
    -- existing-record branch
    split at h
    · cases h
      exact hc
    · exact burnSub_conserved frm q h hst hc

theorem tryDrain_conserved (env : Env) (frm to0 : Nat) (q : Int) (s s' : OliveState)
    (st : CurrencyStats) (hst : s.stat = some st)
    (h : tryDrain env frm to0 q s = .ok s') (hc : Conserved s) : Conserved s' := by
  simp only [tryDrain] at h
  split at h
  · cases h
  split at h
  · cases h
  split at h
  · cases h
  next tp hp =>
    split at h
    next hpriv =>
      split at h
      next hcross =>
        cases h
        exact tryUbiClaim_conserved env true _ _ hc
      next hcross =>
        cases h
        exact hc
    next hpriv =>
      split at h
      next hcross =>
        obtain ⟨st2, hst2⟩ := tryUbiClaim_stat_isSome env true
          (if to0 = env.self then frm else to0)
          { s with persons := tset s.persons (if to0 = env.self then frm else to0)
                     (⟨toInt32 (max int32min (tp.score - q)), tp.lastClaimDay,
                       tp.pop⟩ : Person) }
          st hst
        exact burnSub_conserved frm q h hst2 (tryUbiClaim_conserved env true _ _ hc)
      next hcross =>
        exact burnSub_conserved frm q h hst hc

theorem supplyOf_addBalance (o : Nat) (v : Int) (s : OliveState) :
    supplyOf (addBalance o v s) = supplyOf s := by
  unfold supplyOf
  rw [addBalance_stat]

theorem supplyOf_congr {s2 s3 : OliveState} (h : s2.stat = s3.stat) :
    supplyOf s2 = supplyOf s3 := by
  unfold supplyOf
  rw [h]

theorem tryPop_conserved (env : Env) (frm toA : Nat) (np : String) (s s' : OliveState)
    (h : tryPop env frm toA np s = .ok s') (hc : Conserved s) : Conserved s' := by
  obtain ⟨h1, h2⟩ := tryPop_ok env frm toA np s s' h
  simp only [Conserved, sumBal, supplyOf, h1, h2]
  simp only [Conserved, sumBal, supplyOf] at hc
  exact hc

/-! ### Conservation through each public action -/

theorem transfer_conserved (env : Env) (frm toA : Nat) (q : Int) (memo : String)
    (s s' : OliveState) (h : transfer env frm toA q memo s = .ok s')
    (hc : Conserved s) : Conserved s' := by
  unfold transfer at h
  split at h
  · cases h
  split at h
  · cases h
  split at h
  · cases h
  next st hst =>
    split at h
    · cases h
    split at h
    · cases h
    split at h
    · exact tryPop_conserved env frm toA "" s s' h hc
    split at h
    · exact tryPop_conserved env frm toA (memo.drop 6) s s' h hc
    split at h
    · exact tryEndorse_conserved env frm toA q s s' st hst h hc
    split at h
    · exact tryDrain_conserved env frm toA q s s' st hst h hc
    split at h
    · cases h
    split at h
    · cases h
      exact hc
    split at h
    · cases h
    next s2 hsub =>
      cases h
      have hcu : Conserved (tryUbiClaim env false frm s) :=
        tryUbiClaim_conserved env false frm s hc
      obtain ⟨h1, _, h3⟩ := subBalance_ok _ _ _ _ hsub
      simp only [Conserved]
      rw [addBalance_sum, h3, supplyOf_addBalance, supplyOf_congr h1, sub_add_cancel]
      exact hcu

theorem create_conserved (env : Env) (issuer : Nat) (m : Int) (s s' : OliveState)
    (h : create env issuer m s = .ok s') (hc : Conserved s) : Conserved s' := by
  unfold create at h
  split at h
  · cases h
  split at h
  · cases h
  split at h
  · cases h
  split at h
  · cases h
  next hst =>
    cases h
    simp only [Conserved, sumBal, supplyOf]
    simp only [Conserved, sumBal, supplyOf, hst] at hc
    exact hc

theorem issue_conserved (env : Env) (toA : Nat) (q : Int) (memo : String)
    (s s' : OliveState) (h : issue env toA q memo s = .ok s')
    (hc : Conserved s) : Conserved s' := by
  unfold issue at h
  split at h
  · cases h
  split at h
  · cases h
  next st hst =>
    split at h
    · cases h
    split at h
    · cases h
    split at h
    · cases h
    split at h
    · cases h
    have hc2 : Conserved (addBalance st.issuer q
        { s with stat := some { st with supply := st.supply + q } }) := by
      simp only [Conserved]
      rw [addBalance_sum, supplyOf_addBalance]
      simp only [supplyOf, sumBal]
      simp only [Conserved, sumBal, supplyOf, hst] at hc
      omega
    split at h
    · exact transfer_conserved _ _ _ _ _ _ _ h hc2
    · cases h
      exact hc2

theorem retire_conserved (env : Env) (q : Int) (memo : String) (s s' : OliveState)
    (h : retire env q memo s = .ok s') (hc : Conserved s) : Conserved s' := by
  unfold retire at h
  split at h
  · cases h
  split at h
  · cases h
  next st hst =>
    split at h
    · cases h
    split at h
    · cases h
    split at h
    · cases h
    split at h
    · cases h
    obtain ⟨h1, _, h3⟩ := subBalance_ok _ _ _ _ h
    simp only [Conserved]
    rw [h3]
    have h4 : supplyOf s' = st.supply - q := by
      unfold supplyOf
      rw [h1]
    rw [h4]
    simp only [sumBal]
    simp only [Conserved, sumBal, supplyOf, hst] at hc
    omega

theorem openBalance_conserved (env : Env) (owner payer : Nat) (s s' : OliveState)
    (h : openBalance env owner payer s = .ok s') (hc : Conserved s) : Conserved s' := by
  unfold openBalance at h
  split at h
  · cases h
  split at h
  · cases h
  split at h
  next hb =>
    cases h
    exact conserved_open_zero s.stat s.balances s.persons s.persons owner hb hc
  next bal hb =>
    cases h
    exact hc

theorem close_conserved (env : Env) (owner : Nat) (s s' : OliveState)
    (h : close env owner s = .ok s') (hc : Conserved s) : Conserved s' := by
  simp only [close] at h
  split at h
  · cases h
  split at h
  · cases h
  next bal hb =>
    split at h
    · cases h
    next hz =>
      split at h
      · cases h
      next p hp =>
        cases h
        have hz' : bal = 0 := not_not.mp hz
        simp only [Conserved, sumBal, supplyOf]
        rw [sumPairs_terase_some s.balances owner bal hb, hz']
        simp only [Conserved, sumBal, supplyOf] at hc
        omega

theorem setpop_conserved (env : Env) (owner : Nat) (pop : String) (s s' : OliveState)
    (h : setpop env owner pop s = .ok s') (hc : Conserved s) : Conserved s' := by
  unfold setpop at h
  split at h
  · cases h
  split at h
  · cases h
  split at h
  · cases h
  split at h
  · cases h
  next p hp =>
    cases h
    exact hc

theorem endorse_conserved (env : Env) (frm toA : Nat) (q : Int) (memo : String)
    (s s' : OliveState) (h : endorse env frm toA q memo s = .ok s')
    (hc : Conserved s) : Conserved s' := by
  unfold endorse at h
  split at h
  · cases h
  split at h
  · cases h
  split at h
  · cases h
  next st hst =>
    split at h
    · cases h
    split at h
    · cases h
    exact tryEndorse_conserved env frm toA q s s' st hst h hc

theorem drain_conserved (env : Env) (frm toA : Nat) (q : Int) (memo : String)
    (s s' : OliveState) (h : drain env frm toA q memo s = .ok s')
    (hc : Conserved s) : Conserved s' := by
  unfold drain at h
  split at h
  · cases h
  split at h
  · cases h
  split at h
  · cases h
  next st hst =>
    split at h
    · cases h
    split at h
    · cases h
    exact tryDrain_conserved env frm toA q s s' st hst h hc

/-- Claim C1: for every symbol and after every completed operation (create,
    issue, retire, transfer, open, close, endorse, drain, and the UBI
    settlement they invoke), the sum of all balance-record amounts for that
    symbol equals the supply record's current_supply for that symbol:
    conservation is preserved by every completed action. -/
theorem step_conserved (env : Env) (op : Op) (s s' : OliveState)
    (h : step env op s = .ok s') (hc : Conserved s) : Conserved s' := by
  cases op with
  | createOp issuer m => exact create_conserved env issuer m s s' h hc
  | issueOp toA q memo => exact issue_conserved env toA q memo s s' h hc
  | retireOp q memo => exact retire_conserved env q memo s s' h hc
  | transferOp frm toA q memo => exact transfer_conserved env frm toA q memo s s' h hc
  | openOp owner payer => exact openBalance_conserved env owner payer s s' h hc
  | closeOp owner => exact close_conserved env owner s s' h hc
  | endorseOp frm toA q memo => exact endorse_conserved env frm toA q memo s s' h hc
  | drainOp frm toA q memo => exact drain_conserved env frm toA q memo s s' h hc
  | setpopOp owner pop => exact setpop_conserved env owner pop s s' h hc

/-- Witness for C1: the conservation theorem applied to a concrete
    completed `create`. -/
theorem step_conserved_witness :
    Conserved (⟨some ⟨0, 1000000, 5⟩, [], []⟩ : OliveState) :=
  step_conserved ⟨1, 0, 4, [1], fun _ => true⟩ (Op.createOp 5 1000000) ⟨none, [], []⟩
    ⟨some ⟨0, 1000000, 5⟩, [], []⟩ (by rfl) (by decide)

/-- Claim C2 counterexample: a plain self-transfer of zero is rejected with
    "must transfer positive quantity" (the positivity check runs before the
    from == to early return), so the call is not accepted when
    quantity.amount is zero. -/
theorem transfer_self_zero_rejected :
    transfer ⟨1, 100, 4, [2], fun _ => true⟩ 2 2 0 ""
        ⟨some ⟨0, 1000000, 1⟩, [(2, 0)], []⟩
      = .error "must transfer positive quantity" := by rfl

/-- Claim C2 (amended): a plain self-transfer (memo not matching a command)
    requires a positive quantity like any plain transfer, and an accepted
    self-transfer returns before the UBI settlement: the whole state is
    returned unchanged (no settlement for `from`, no balance move). -/
theorem transfer_self_noop (env : Env) (frm : Nat) (q : Int) (memo : String)
    (s : OliveState) (st : CurrencyStats)
    (hauth : frm ∈ env.auths) (hacct : env.isAcct frm = true)
    (hst : s.stat = some st) (hq : assetValid q) (hm : memo.length ≤ 256)
    (h1 : memo ≠ "--pop") (h2 : memo.take 6 ≠ "--pop ")
    (h3 : ¬ (memo = "--endorse" ∨ memo.take 10 = "--endorse "))
    (h4 : ¬ (memo = "--drain" ∨ memo.take 8 = "--drain "))
    (hpos : 0 < q) :
    transfer env frm frm q memo s = .ok s := by
  obtain ⟨hq1, hq2⟩ := hq
  simp [transfer, hst, hauth, hacct, hq1, hq2, hm, h1, h2, h3, h4, hpos]

/-- Witness for the amended C2 on a sender whose pending UBI would
    otherwise be claimable: the self-transfer still changes nothing. -/
theorem transfer_self_noop_witness :
    transfer ⟨1, 100, 4, [2], fun _ => true⟩ 2 2 7 "hello"
        ⟨some ⟨50, 1000000, 1⟩, [(2, 50)], [(2, ⟨10000, 5, "x"⟩)]⟩
      = .ok ⟨some ⟨50, 1000000, 1⟩, [(2, 50)], [(2, ⟨10000, 5, "x"⟩)]⟩ :=
  transfer_self_noop ⟨1, 100, 4, [2], fun _ => true⟩ 2 7 "hello"
    ⟨some ⟨50, 1000000, 1⟩, [(2, 50)], [(2, ⟨10000, 5, "x"⟩)]⟩ ⟨50, 1000000, 1⟩
    (by decide) (by rfl) (by rfl) (by decide) (by decide) (by decide) (by decide)
    (by decide) (by decide) (by decide)

/-- Claim C5: on a zero balance with no reputation record, `close` aborts
    with the host multi_index's end-iterator guard (the source erases the
    `persons` iterator without testing `find`'s result), while on a zero
    balance with a reputation record it deletes both rows. -/
theorem close_end_iterator_bug :
    close ⟨1, 100, 4, [7], fun _ => true⟩ 7 ⟨some ⟨0, 1000000, 1⟩, [(7, 0)], []⟩
        = .error "cannot pass end iterator to erase" ∧
    close ⟨1, 100, 4, [7], fun _ => true⟩ 7
        ⟨some ⟨0, 1000000, 1⟩, [(7, 0)], [(7, ⟨5, 10, "x"⟩)]⟩
      = .ok ⟨some ⟨0, 1000000, 1⟩, [], []⟩ :=
  ⟨by rfl, by rfl⟩

/-- Claim C6: `retire` executes the second, unconditional
    `require_auth(st.issuer)` even when the issuer is the contract account
    itself, so the call aborts without the issuer's (the contract's)
    authority, and succeeds with it. -/
theorem retire_requires_issuer_auth_even_for_contract :
    retire ⟨1, 100, 4, [9], fun _ => true⟩ 50000 ""
        ⟨some ⟨100000, 1000000, 1⟩, [(1, 100000)], []⟩
        = .error "missing required authority" ∧
    retire ⟨1, 100, 4, [1], fun _ => true⟩ 50000 ""
        ⟨some ⟨100000, 1000000, 1⟩, [(1, 100000)], []⟩
      = .ok ⟨some ⟨50000, 1000000, 1⟩, [(1, 50000)], []⟩ :=
  ⟨by rfl, by rfl⟩


theorem endorserGate_none_person (env : Env) (frm : Nat) (s : OliveState)
    (h : endorserGate env frm s = none) : ∃ fp, tlookup s.persons frm = some fp := by
  unfold endorserGate at h
  split at h
  · cases h
  next fp hfp =>
    exact ⟨fp, hfp⟩

theorem endorserGate_none_of (env : Env) (frm : Nat) (s : OliveState) (fp : Person)
    (hfp : tlookup s.persons frm = some fp)
    (hsc : endorse_minimum_score * (pmulNat env : Int) ≤ fp.score)
    (hpop : ¬ isEmptyPop fp.pop) : endorserGate env frm s = none := by
  simp [endorserGate, hfp, hsc, hpop]

theorem tryEndorse_create_spec (env : Env) (frm to0 : Nat) (q : Int) (s s' : OliveState)
    (hp : tlookup s.persons (if to0 = env.self then frm else to0) = none)
    (h : tryEndorse env frm to0 q s = .ok s') :
    tlookup s'.persons (if to0 = env.self then frm else to0)
      = some ⟨(if frm = env.self then toInt32 q
               else toInt32 (toInt32 q - first_endorsement_fee * (pmulNat env : Int))),
              (env.today + 1) % 65536, "[DEFAULT]"⟩ ∧
    tlookup s'.balances (if to0 = env.self then frm else to0)
      = some ((tlookup s.balances (if to0 = env.self then frm else to0)).getD 0) := by
  simp only [tryEndorse] at h
  split at h
  · cases h
  split at h
  next e hgate => cases h
  next hgate =>
    split at h
    next hq =>
      split at h
      · cases h
      split at h
      next hpriv =>
        split at h
        next hb =>
          cases h
          constructor
          · simp [hpriv, tlookup_tset_self]
          · simp [hb, tlookup_tset_self]
        next bal hb =>
          cases h
          constructor
          · simp [hpriv, tlookup_tset_self]
          · simp [hb]
      next hpriv =>
        rw [if_neg hpriv] at hgate
        obtain ⟨fp, hfp⟩ := endorserGate_none_person env frm s hgate
        have hne : (if to0 = env.self then frm else to0) ≠ frm := by
          intro e
          rw [e, hfp] at hp
          cases hp
        split at h
        next hb =>
          obtain ⟨hstat', hpers', _⟩ := subBalance_ok _ _ _ _ h
          have hbal' := subBalance_lookup_ne frm q _ _ _ hne h
          constructor
          · rw [hpers', burnSupply_persons]
            simp [hpriv, tlookup_tset_self]
          · rw [hbal', burnSupply_balances]
            simp [hb, tlookup_tset_self]
        next bal hb =>
          obtain ⟨hstat', hpers', _⟩ := subBalance_ok _ _ _ _ h
          have hbal' := subBalance_lookup_ne frm q _ _ _ hne h
          constructor
          · rw [hpers', burnSupply_persons]
            simp [hpriv, tlookup_tset_self]
          · rw [hbal', burnSupply_balances]
            simp [hb]
    next tp hq =>
      rw [hp] at hq
      cases hq

/-- Claim C4 counterexample: a non-privileged first endorsement of 2.0000
    (raw 20000 at precision 4) creates the target's record with score
    10000, not 20000: the first-endorsement fee (1.0000) is deducted from
    the initial score. -/
theorem first_endorsement_score_not_quantity :
    (endorse ⟨1, 100, 4, [2], fun _ => true⟩ 2 3 20000 ""
        ⟨some ⟨500000, 10000000000, 1⟩, [(2, 300000)], [(2, ⟨200000, 5, "x"⟩)]⟩).map
      (fun s2 => tlookup s2.persons 3)
      = .ok (some ⟨10000, 101, "[DEFAULT]"⟩) ∧ (10000 : Int) ≠ 20000 :=
  ⟨by rfl, by decide⟩

/-- Claim C4 (amended): a first endorsement creates the target's record
    with last_claim_day = (today + 1) stored as a 16-bit day, the reserved
    default proof-of-personhood, and score equal to the signed-32-bit store
    of quantity.amount for privileged endorsements and of quantity.amount
    minus the first-endorsement fee otherwise; a zero balance row is opened
    for the target if absent (and an existing row is left unchanged). -/
theorem endorse_first_creates_record (env : Env) (frm to0 : Nat) (q : Int)
    (s s' : OliveState)
    (hp : tlookup s.persons (if to0 = env.self then frm else to0) = none)
    (h : tryEndorse env frm to0 q s = .ok s') :
    tlookup s'.persons (if to0 = env.self then frm else to0)
      = some ⟨(if frm = env.self then toInt32 q
               else toInt32 (toInt32 q - first_endorsement_fee * (pmulNat env : Int))),
              (env.today + 1) % 65536, "[DEFAULT]"⟩ ∧
    tlookup s'.balances (if to0 = env.self then frm else to0)
      = some ((tlookup s.balances (if to0 = env.self then frm else to0)).getD 0) :=
  tryEndorse_create_spec env frm to0 q s s' hp h

/-- Witness for the amended C4 at a concrete non-privileged first
    endorsement. -/
theorem endorse_first_creates_record_witness :
    tlookup (⟨some ⟨480000, 10000000000, 1⟩, [(2, 280000), (3, 0)],
        [(2, ⟨200000, 5, "x"⟩), (3, ⟨10000, 101, "[DEFAULT]"⟩)]⟩ : OliveState).persons 3
      = some ⟨(if 2 = 1 then toInt32 20000
               else toInt32 (toInt32 20000
                 - first_endorsement_fee * (pmulNat ⟨1, 100, 4, [2], fun _ => true⟩ : Int))),
              101, "[DEFAULT]"⟩ :=
  (endorse_first_creates_record ⟨1, 100, 4, [2], fun _ => true⟩ 2 3 20000
    ⟨some ⟨500000, 10000000000, 1⟩, [(2, 300000)], [(2, ⟨200000, 5, "x"⟩)]⟩
    ⟨some ⟨480000, 10000000000, 1⟩, [(2, 280000), (3, 0)],
      [(2, ⟨200000, 5, "x"⟩), (3, ⟨10000, 101, "[DEFAULT]"⟩)]⟩
    (by rfl) (by rfl)).1

/-- Claim C10 counterexample: a non-privileged first endorsement of raw
    amount 2^31 + 10000 creates the record with score INT32_MIN (the store
    into the int32 score field truncates), not amount - fee. -/
theorem first_endorsement_truncation :
    (endorse ⟨1, 50, 4, [2], fun _ => true⟩ 2 3 2147493648 ""
        ⟨some ⟨3000000000, 4611686018427387903, 1⟩, [(2, 2147493648)],
          [(2, ⟨2000000, 5, "x"⟩)]⟩).map
      (fun s2 => (tlookup s2.persons 3).map Person.score)
      = .ok (some (-2147483648)) ∧ (-2147483648 : Int) ≠ 2147493648 - 10000 :=
  ⟨by rfl, by decide⟩

/-- Claim C10 (amended): a non-privileged endorsement of a target with no
    reputation record fails unless quantity.amount strictly exceeds the
    first-endorsement fee (1 whole unit times the precision multiplier),
    and when it completes, the created score is the signed-32-bit store of
    (quantity.amount - fee), which equals quantity.amount - fee whenever
    that difference fits in int32. -/
theorem first_endorsement_fee_gate (env : Env) (frm to0 : Nat) (q : Int)
    (s s' : OliveState) (fp : Person)
    (hpriv : frm ≠ env.self)
    (hfp : tlookup s.persons frm = some fp)
    (hsc : endorse_minimum_score * (pmulNat env : Int) ≤ fp.score)
    (hpop : ¬ isEmptyPop fp.pop)
    (hp : tlookup s.persons (if to0 = env.self then frm else to0) = none) :
    (0 < q → q ≤ first_endorsement_fee * (pmulNat env : Int) →
      tryEndorse env frm to0 q s
        = .error "first endorsement quantity must be greater than the first endorsement fee") ∧
    (tryEndorse env frm to0 q s = .ok s' →
      (tlookup s'.persons (if to0 = env.self then frm else to0)).map Person.score
        = some (toInt32 (toInt32 q - first_endorsement_fee * (pmulNat env : Int)))) := by
  constructor
  · intro hq hfee
    simp [tryEndorse, hq, hpriv, endorserGate_none_of env frm s fp hfp hsc hpop, hp,
      not_lt.mpr hfee]
  · intro h
    rw [(tryEndorse_create_spec env frm to0 q s s' hp h).1]
    simp [hpriv]

/-- Witness for the amended C10: the fee gate rejects 0.5000 and a
    completed 2.0000 first endorsement records score 1.0000. -/
theorem first_endorsement_fee_gate_witness :
    tryEndorse ⟨1, 100, 4, [2], fun _ => true⟩ 2 3 5000
        ⟨some ⟨500000, 10000000000, 1⟩, [(2, 300000)], [(2, ⟨200000, 5, "x"⟩)]⟩
      = .error "first endorsement quantity must be greater than the first endorsement fee" ∧
    (tlookup (⟨some ⟨480000, 10000000000, 1⟩, [(2, 280000), (3, 0)],
        [(2, ⟨200000, 5, "x"⟩), (3, ⟨10000, 101, "[DEFAULT]"⟩)]⟩ : OliveState).persons 3).map
        Person.score
      = some (toInt32 (toInt32 20000
          - first_endorsement_fee * (pmulNat ⟨1, 100, 4, [2], fun _ => true⟩ : Int))) :=
  ⟨(first_endorsement_fee_gate ⟨1, 100, 4, [2], fun _ => true⟩ 2 3 5000
      ⟨some ⟨500000, 10000000000, 1⟩, [(2, 300000)], [(2, ⟨200000, 5, "x"⟩)]⟩
      ⟨some ⟨500000, 10000000000, 1⟩, [(2, 300000)], [(2, ⟨200000, 5, "x"⟩)]⟩
      ⟨200000, 5, "x"⟩ (by decide) (by rfl) (by decide) (by decide) (by rfl)).1
      (by decide) (by decide),
   (first_endorsement_fee_gate ⟨1, 100, 4, [2], fun _ => true⟩ 2 3 20000
      ⟨some ⟨500000, 10000000000, 1⟩, [(2, 300000)], [(2, ⟨200000, 5, "x"⟩)]⟩
      ⟨some ⟨480000, 10000000000, 1⟩, [(2, 280000), (3, 0)],
        [(2, ⟨200000, 5, "x"⟩), (3, ⟨10000, 101, "[DEFAULT]"⟩)]⟩
      ⟨200000, 5, "x"⟩ (by decide) (by rfl) (by decide) (by decide) (by rfl)).2
      (by rfl)⟩


theorem toInt32_eq_self (x : Int) (h1 : int32min ≤ x) (h2 : x ≤ int32max) :
    toInt32 x = x := by
  unfold toInt32
  unfold int32min at h1
  unfold int32max at h2
  omega

theorem pmulNat_pos (env : Env) : 0 < pmulNat env := by
  unfold pmulNat
  positivity

/-- Full characterization of the minting branch of `try_ubi_claim` (the
    `last_claim_day < today` case), with the uint16 reductions discharged
    by the ambient-day bound. -/
theorem ubiMint_spec (env : Env) (f : Nat) (st : CurrencyStats) (p : Person)
    (s : OliveState) (pending lost days : Nat) (capped : Int)
    (hday : p.lastClaimDay < env.today) (htoday : env.today < 65536)
    (hpend : pending = env.today - p.lastClaimDay - 1)
    (hlost : lost = pending - 360)
    (hdays : days = min pending 360)
    (hcap : capped = min (((days : Int) + 1) * (pmulNat env : Int))
      (st.maxSupply - st.supply)) :
    (capped ≤ 0 → ubiMint env f st p s = s) ∧
    (0 < capped → ubiMint env f st p s =
      addBalance f capped
        { s with stat := some { st with supply := st.supply + capped },
                 persons := tset s.persons f
                   (⟨p.score, p.lastClaimDay + (lost + capped.toNat / pmulNat env),
                     p.pop⟩ : Person) }) := by
  have hM : 0 < pmulNat env := pmulNat_pos env
  have e2 : (if 360 < env.today - p.lastClaimDay - 1 then 360
             else env.today - p.lastClaimDay - 1) = days := by
    subst hdays hpend
    split <;> omega
  have e1 : (if 360 < env.today - p.lastClaimDay - 1
             then (env.today - p.lastClaimDay - 1 - 360) % 65536 else 0) = lost := by
    subst hlost hpend
    split
    next hgt =>
      rw [Nat.mod_eq_of_lt (by omega)]
    next hgt =>
      omega
  have e3 : (if st.maxSupply - st.supply < ((days : Int) + 1) * (pmulNat env : Int)
             then st.maxSupply - st.supply
             else ((days : Int) + 1) * (pmulNat env : Int)) = capped := by
    subst hcap
    rw [min_def]
    split <;> split <;> omega
  have hrawNat : (((days : Int) + 1) * (pmulNat env : Int)).toNat
      = (days + 1) * pmulNat env := by
    have hcast : ((days : Int) + 1) * (pmulNat env : Int)
        = (((days + 1) * pmulNat env : Nat) : Int) := by
      push_cast
      ring
    rw [hcast, Int.toNat_natCast]
  have h1 : capped.toNat ≤ (days + 1) * pmulNat env := by
    have hle : capped ≤ ((days : Int) + 1) * (pmulNat env : Int) := by
      rw [hcap]
      exact min_le_left _ _
    calc capped.toNat ≤ (((days : Int) + 1) * (pmulNat env : Int)).toNat :=
          Int.toNat_le_toNat hle
      _ = (days + 1) * pmulNat env := hrawNat
  have h2 : capped.toNat / pmulNat env ≤ days + 1 := by
    calc capped.toNat / pmulNat env ≤ ((days + 1) * pmulNat env) / pmulNat env :=
          Nat.div_le_div_right h1
      _ = days + 1 := Nat.mul_div_cancel _ hM
  have hdelta : lost + capped.toNat / pmulNat env ≤ env.today - p.lastClaimDay := by
    have : lost + (days + 1) = pending + 1 := by
      subst hlost hdays
      omega
    omega
  have hmod1 : (lost + capped.toNat / pmulNat env) % 65536
      = lost + capped.toNat / pmulNat env := by
    apply Nat.mod_eq_of_lt
    omega
  have hmod2 : (p.lastClaimDay + (lost + capped.toNat / pmulNat env)) % 65536
      = p.lastClaimDay + (lost + capped.toNat / pmulNat env) := by
    apply Nat.mod_eq_of_lt
    omega
  constructor
  · intro hle
    simp only [ubiMint, e1, e2, e3]
    rw [if_neg (by omega)]
  · intro hpos
    simp only [ubiMint, e1, e2, e3, hmod1, hmod2]
    rw [if_pos hpos]


/-- Full characterization of `try_ubi_claim` for an account that passes the
    score/identity gates and whose pointer is in the past. -/
theorem tryUbiClaim_spec (env : Env) (silent : Bool) (frm : Nat) (s : OliveState)
    (st : CurrencyStats) (p : Person) (pending lost days : Nat) (capped : Int)
    (hst : s.stat = some st) (hp : tlookup s.persons frm = some p)
    (hgate : ¬ (p.score ≤ 0 ∧ silent = false)) (hpop : ¬ isEmptyPop p.pop)
    (hday : p.lastClaimDay < env.today) (htoday : env.today < 65536)
    (hpend : pending = env.today - p.lastClaimDay - 1)
    (hlost : lost = pending - 360)
    (hdays : days = min pending 360)
    (hcap : capped = min (((days : Int) + 1) * (pmulNat env : Int))
      (st.maxSupply - st.supply)) :
    (capped ≤ 0 → tryUbiClaim env silent frm s = s) ∧
    (0 < capped →
      (tryUbiClaim env silent frm s).stat = some { st with supply := st.supply + capped } ∧
      tlookup (tryUbiClaim env silent frm s).balances frm
        = some ((tlookup s.balances frm).getD 0 + capped) ∧
      tlookup (tryUbiClaim env silent frm s).persons frm
        = some ⟨p.score, p.lastClaimDay + (lost + capped.toNat / pmulNat env), p.pop⟩) := by
  have hu : tryUbiClaim env silent frm s = ubiMint env frm st p s := by
    simp [tryUbiClaim, hst, hp, hgate, hpop, hday]
  obtain ⟨hno, hyes⟩ :=
    ubiMint_spec env frm st p s pending lost days capped hday htoday hpend hlost hdays hcap
  constructor
  · intro hle
    rw [hu, hno hle]
  · intro hpos
    rw [hu, hyes hpos]
    refine ⟨?_, ?_, ?_⟩
    · rw [addBalance_stat]
    · rw [addBalance_lookup_self]
    · rw [addBalance_persons]
      exact tlookup_tset_self _ _ _

/-- A UBI settlement never changes any person's score. -/
theorem tryUbiClaim_score_lookup (env : Env) (b : Bool) (f n : Nat) (s : OliveState) :
    (tlookup (tryUbiClaim env b f s).persons n).map Person.score
      = (tlookup s.persons n).map Person.score := by
  unfold tryUbiClaim
  split
  · rfl
  next st hst =>
    split
    · rfl
    next p hp =>
      split
      · rfl
      split
      · rfl
      split
      · unfold ubiMint
        lift_lets
        intro pending lost days rawClaim available capped delta
        split
        · rw [addBalance_persons]
          by_cases hn : n = f
          · subst hn
            simp [tlookup_tset_self, hp]
          · simp [tlookup_tset_ne _ _ _ _ hn]
        · rfl
      · rfl


/-- Claim C3: for a UBI settlement of an eligible account (person row
    present, positive score, proof-of-personhood set, pointer in the past)
    the minted amount is (min(today - last - 1, 360) + 1) x the precision
    multiplier, capped at max_supply - current_supply; a non-positive
    capped amount changes nothing; otherwise the capped amount is added to
    the supply and the account's balance, and last_claim_day advances by
    exactly lost_days + (capped amount / precision multiplier), so days
    unminted because of the cap stay claimable. -/
theorem ubi_settlement_amount (env : Env) (silent : Bool) (frm : Nat) (s : OliveState)
    (st : CurrencyStats) (p : Person) (pending lost days : Nat) (capped : Int)
    (hst : s.stat = some st) (hp : tlookup s.persons frm = some p)
    (hscore : 0 < p.score) (hpop : ¬ isEmptyPop p.pop)
    (hday : p.lastClaimDay < env.today) (htoday : env.today < 65536)
    (hpend : pending = env.today - p.lastClaimDay - 1)
    (hlost : lost = pending - 360)
    (hdays : days = min pending 360)
    (hcap : capped = min (((days : Int) + 1) * (pmulNat env : Int))
      (st.maxSupply - st.supply)) :
    (capped ≤ 0 → tryUbiClaim env silent frm s = s) ∧
    (0 < capped →
      (tryUbiClaim env silent frm s).stat = some { st with supply := st.supply + capped } ∧
      tlookup (tryUbiClaim env silent frm s).balances frm
        = some ((tlookup s.balances frm).getD 0 + capped) ∧
      tlookup (tryUbiClaim env silent frm s).persons frm
        = some ⟨p.score, p.lastClaimDay + (lost + capped.toNat / pmulNat env), p.pop⟩) :=
  tryUbiClaim_spec env silent frm s st p pending lost days capped hst hp
    (fun hcon => absurd hscore (not_lt.mpr hcon.1)) hpop hday htoday
    hpend hlost hdays hcap

/-- Witness for C3: ten claimable days at precision 4 mint 11.0000 (9
    pending + today ... pending 10 gives 11 days including today) into the
    claimant's balance and advance the pointer to today. -/
theorem ubi_settlement_amount_witness :
    (tryUbiClaim ⟨1, 100, 4, [2], fun _ => true⟩ false 2
        ⟨some ⟨50, 10000000, 1⟩, [(2, 50)], [(2, ⟨10000, 89, "x"⟩)]⟩).stat
      = some ⟨110050, 10000000, 1⟩ ∧
    tlookup (tryUbiClaim ⟨1, 100, 4, [2], fun _ => true⟩ false 2
        ⟨some ⟨50, 10000000, 1⟩, [(2, 50)], [(2, ⟨10000, 89, "x"⟩)]⟩).balances 2
      = some 110050 ∧
    tlookup (tryUbiClaim ⟨1, 100, 4, [2], fun _ => true⟩ false 2
        ⟨some ⟨50, 10000000, 1⟩, [(2, 50)], [(2, ⟨10000, 89, "x"⟩)]⟩).persons 2
      = some ⟨10000, 100, "x"⟩ :=
  (ubi_settlement_amount ⟨1, 100, 4, [2], fun _ => true⟩ false 2
    ⟨some ⟨50, 10000000, 1⟩, [(2, 50)], [(2, ⟨10000, 89, "x"⟩)]⟩
    ⟨50, 10000000, 1⟩ ⟨10000, 89, "x"⟩ 10 0 10 110000
    (by rfl) (by rfl) (by decide) (by decide) (by decide) (by decide)
    (by decide) (by decide) (by decide) (by decide)).2 (by decide)


/-- Claim C8: endorsing an account that already has a reputation record
    sets the score to min(INT32_MAX, old + amount); draining sets it to
    max(INT32_MIN, old - amount); neither can leave the signed-32-bit
    range by wraparound. -/
theorem score_saturation (env : Env) (frm to0 : Nat) (q : Int) (s : OliveState)
    (p : Person) (s1 s2 : OliveState)
    (hp : tlookup s.persons (if to0 = env.self then frm else to0) = some p)
    (hlo : int32min ≤ p.score) (hhi : p.score ≤ int32max) (hq : 0 < q) :
    (tryEndorse env frm to0 q s = .ok s1 →
      (tlookup s1.persons (if to0 = env.self then frm else to0)).map Person.score
          = some (min int32max (p.score + q)) ∧
        int32min ≤ min int32max (p.score + q) ∧ min int32max (p.score + q) ≤ int32max) ∧
    (tryDrain env frm to0 q s = .ok s2 →
      (tlookup s2.persons (if to0 = env.self then frm else to0)).map Person.score
          = some (max int32min (p.score - q)) ∧
        int32min ≤ max int32min (p.score - q) ∧ max int32min (p.score - q) ≤ int32max) := by
  have hr1lo : int32min ≤ min int32max (p.score + q) := by
    rcases min_cases int32max (p.score + q) with ⟨he, h2⟩ | ⟨he, h2⟩ <;> rw [he] <;>
      unfold int32min int32max at * <;> omega
  have hr1hi : min int32max (p.score + q) ≤ int32max := min_le_left _ _
  have hr2lo : int32min ≤ max int32min (p.score - q) := le_max_left _ _
  have hr2hi : max int32min (p.score - q) ≤ int32max := by
    rcases max_cases int32min (p.score - q) with ⟨he, h2⟩ | ⟨he, h2⟩ <;> rw [he] <;>
      unfold int32min int32max at * <;> omega
  have heq1 : toInt32 (min int32max (p.score + q)) = min int32max (p.score + q) :=
    toInt32_eq_self _ hr1lo hr1hi
  have heq2 : toInt32 (max int32min (p.score - q)) = max int32min (p.score - q) :=
    toInt32_eq_self _ hr2lo hr2hi
  constructor
  · intro h
    simp only [tryEndorse] at h
    split at h
    · cases h
    split at h
    next e hg => cases h
    next hg =>
      split at h
      next hq0 =>
        rw [hp] at hq0
        cases hq0
      next tp hq0 =>
        rw [hp] at hq0
        injection hq0 with he
        subst he
        refine ⟨?_, hr1lo, hr1hi⟩
        split at h
        next hpriv =>
          cases h
          simp [tlookup_tset_self, heq1]
        next hpriv =>
          obtain ⟨_, hpers, _⟩ := subBalance_ok _ _ _ _ h
          rw [hpers, burnSupply_persons]
          simp [tlookup_tset_self, heq1]
  · intro h
    simp only [tryDrain] at h
    split at h
    · cases h
    split at h
    next e hg => cases h
    next hg =>
      split at h
      next hq0 =>
        rw [hp] at hq0
        cases hq0
      next tp hq0 =>
        rw [hp] at hq0
        injection hq0 with he
        subst he
        refine ⟨?_, hr2lo, hr2hi⟩
        split at h
        next hpriv =>
          split at h
          next hcr =>
            cases h
            rw [tryUbiClaim_score_lookup]
            simp [tlookup_tset_self, heq2]
          next hcr =>
            cases h
            simp [tlookup_tset_self, heq2]
        next hpriv =>
          split at h
          next hcr =>
            obtain ⟨_, hpers, _⟩ := subBalance_ok _ _ _ _ h
            rw [hpers, burnSupply_persons, tryUbiClaim_score_lookup]
            simp [tlookup_tset_self, heq2]
          next hcr =>
            obtain ⟨_, hpers, _⟩ := subBalance_ok _ _ _ _ h
            rw [hpers, burnSupply_persons]
            simp [tlookup_tset_self, heq2]

/-- Witness for C8: a completed endorsement raises 5 to 13 and a completed
    drain lowers 5 to -3, both inside the int32 range. -/
theorem score_saturation_witness :
    ((tlookup (⟨some ⟨92, 1000, 1⟩, [(2, 42), (3, 7)],
          [(2, ⟨10, 99, "x"⟩), (3, ⟨13, 89, "y"⟩)]⟩ : OliveState).persons 3).map
        Person.score = some 13 ∧
      int32min ≤ (13 : Int) ∧ (13 : Int) ≤ int32max) ∧
    ((tlookup (⟨some ⟨103, 1000, 1⟩, [(2, 42), (3, 18)],
          [(2, ⟨10, 99, "x"⟩), (3, ⟨-3, 100, "y"⟩)]⟩ : OliveState).persons 3).map
        Person.score = some (-3) ∧
      int32min ≤ (-3 : Int) ∧ (-3 : Int) ≤ int32max) :=
  ⟨(score_saturation ⟨1, 100, 0, [2], fun _ => true⟩ 2 3 8
      ⟨some ⟨100, 1000, 1⟩, [(2, 50), (3, 7)], [(2, ⟨10, 99, "x"⟩), (3, ⟨5, 89, "y"⟩)]⟩
      ⟨5, 89, "y"⟩
      ⟨some ⟨92, 1000, 1⟩, [(2, 42), (3, 7)], [(2, ⟨10, 99, "x"⟩), (3, ⟨13, 89, "y"⟩)]⟩
      ⟨some ⟨103, 1000, 1⟩, [(2, 42), (3, 18)], [(2, ⟨10, 99, "x"⟩), (3, ⟨-3, 100, "y"⟩)]⟩
      (by rfl) (by decide) (by decide) (by decide)).1 (by rfl),
   (score_saturation ⟨1, 100, 0, [2], fun _ => true⟩ 2 3 8
      ⟨some ⟨100, 1000, 1⟩, [(2, 50), (3, 7)], [(2, ⟨10, 99, "x"⟩), (3, ⟨5, 89, "y"⟩)]⟩
      ⟨5, 89, "y"⟩
      ⟨some ⟨92, 1000, 1⟩, [(2, 42), (3, 7)], [(2, ⟨10, 99, "x"⟩), (3, ⟨13, 89, "y"⟩)]⟩
      ⟨some ⟨103, 1000, 1⟩, [(2, 42), (3, 18)], [(2, ⟨10, 99, "x"⟩), (3, ⟨-3, 100, "y"⟩)]⟩
      (by rfl) (by decide) (by decide) (by decide)).2 (by rfl)⟩


/-- Claim C7: a drain that crosses the target's score from positive to
    non-positive runs a forced (silent) UBI settlement for the target
    within the same drain: when the settlement's capped amount is positive,
    the pending income is credited to the target's balance and its pointer
    advances, before the drain returns - even though the target's score is
    already non-positive at settlement time. -/
theorem drain_crossing_forces_settlement (env : Env) (frm toA : Nat) (q : Int)
    (s s' : OliveState) (st : CurrencyStats) (p : Person)
    (pending lost days : Nat) (capped : Int)
    (hto1 : toA ≠ env.self) (hto2 : toA ≠ frm)
    (hst : s.stat = some st) (hp : tlookup s.persons toA = some p)
    (hold : 0 < p.score) (hnew : toInt32 (max int32min (p.score - q)) ≤ 0)
    (hpop : ¬ isEmptyPop p.pop) (hday : p.lastClaimDay < env.today)
    (htoday : env.today < 65536)
    (hpend : pending = env.today - p.lastClaimDay - 1)
    (hlost : lost = pending - 360)
    (hdays : days = min pending 360)
    (hcap : capped = min (((days : Int) + 1) * (pmulNat env : Int))
      (st.maxSupply - st.supply))
    (hok : tryDrain env frm toA q s = .ok s') :
    0 < capped →
      tlookup s'.balances toA = some ((tlookup s.balances toA).getD 0 + capped) ∧
      tlookup s'.persons toA
        = some ⟨toInt32 (max int32min (p.score - q)),
                p.lastClaimDay + (lost + capped.toNat / pmulNat env), p.pop⟩ := by
  intro hcappos
  obtain ⟨hspec1, hspec2, hspec3⟩ :=
    (tryUbiClaim_spec env true toA
      { s with persons := tset s.persons toA
                 (⟨toInt32 (max int32min (p.score - q)), p.lastClaimDay,
                   p.pop⟩ : Person) }
      st ⟨toInt32 (max int32min (p.score - q)), p.lastClaimDay, p.pop⟩
      pending lost days capped hst (tlookup_tset_self _ _ _)
      (fun hcon => by cases hcon.2) hpop hday htoday hpend hlost hdays hcap).2 hcappos
  simp only [tryDrain] at hok
  split at hok
  · cases hok
  split at hok
  next e hg => cases hok
  next hg =>
    split at hok
    next hq0 =>
      rw [hp] at hq0
      cases hq0
    next tp hq0 =>
      rw [hp] at hq0
      injection hq0 with he
      subst he
      split at hok
      next hpriv =>
        split at hok
        next hcr =>
          cases hok
          exact ⟨hspec2, hspec3⟩
        next hcr =>
          exact absurd ⟨hold, hnew⟩ hcr
      next hpriv =>
        split at hok
        next hcr =>
          obtain ⟨_, hpers, _⟩ := subBalance_ok _ _ _ _ hok
          have hbne := subBalance_lookup_ne frm q _ _ toA hto2 hok
          constructor
          · rw [hbne, burnSupply_balances]
            exact hspec2
          · rw [hpers, burnSupply_persons]
            exact hspec3
        next hcr =>
          exact absurd ⟨hold, hnew⟩ hcr

/-- Witness for C7: draining 8 from score 5 (crossing to -3) within one
    drain credits the 11 days of pending income to the target and moves
    its pointer to today. -/
theorem drain_crossing_forces_settlement_witness :
    tlookup (⟨some ⟨53, 1000, 1⟩, [(2, 12), (3, 11)],
        [(2, ⟨10, 99, "x"⟩), (3, ⟨-3, 100, "y"⟩)]⟩ : OliveState).balances 3
      = some 11 ∧
    tlookup (⟨some ⟨53, 1000, 1⟩, [(2, 12), (3, 11)],
        [(2, ⟨10, 99, "x"⟩), (3, ⟨-3, 100, "y"⟩)]⟩ : OliveState).persons 3
      = some ⟨-3, 100, "y"⟩ :=
  drain_crossing_forces_settlement ⟨1, 100, 0, [2], fun _ => true⟩ 2 3 8
    ⟨some ⟨50, 1000, 1⟩, [(2, 20), (3, 0)], [(2, ⟨10, 99, "x"⟩), (3, ⟨5, 89, "y"⟩)]⟩
    ⟨some ⟨53, 1000, 1⟩, [(2, 12), (3, 11)], [(2, ⟨10, 99, "x"⟩), (3, ⟨-3, 100, "y"⟩)]⟩
    ⟨50, 1000, 1⟩ ⟨5, 89, "y"⟩ 10 0 10 11
    (by decide) (by decide) (by rfl) (by rfl) (by decide) (by decide) (by decide)
    (by decide) (by decide) (by decide) (by decide) (by decide) (by decide) (by rfl)
    (by decide)


/-- The silent-failure cases of `try_ubi_claim`: no supply record, no
    person row, gated score, unset identity, or a pointer not in the past
    all leave the state unchanged. -/
theorem tryUbiClaim_noop (env : Env) (silent : Bool) (frm : Nat) (s : OliveState)
    (h : s.stat = none ∨ tlookup s.persons frm = none ∨
      ∃ p, tlookup s.persons frm = some p ∧
        ((p.score ≤ 0 ∧ silent = false) ∨ isEmptyPop p.pop ∨
          env.today ≤ p.lastClaimDay)) :
    tryUbiClaim env silent frm s = s := by
  unfold tryUbiClaim
  split
  · rfl
  next st hstat =>
    split
    · rfl
    next p hp =>
      rcases h with h | h | ⟨p', hp', hcase⟩
      · rw [hstat] at h
        cases h
      · rw [hp] at h
        cases h
      · rw [hp] at hp'
        injection hp' with he
        subst he
        split_ifs with hg1 hg2 hg3
        · rfl
        · rfl
        · rcases hcase with hc | hc | hc
          · exact absurd hc hg1
          · exact absurd hc hg2
          · exact absurd hg3 (not_lt.mpr hc)
        · rfl

/-- When the gates pass and the pointer is in the past, `try_ubi_claim` is
    exactly the minting branch. -/
theorem tryUbiClaim_eq_mint (env : Env) (silent : Bool) (frm : Nat) (s : OliveState)
    (st : CurrencyStats) (p : Person) (hstat : s.stat = some st)
    (hp : tlookup s.persons frm = some p) (hg : ¬ (p.score ≤ 0 ∧ silent = false))
    (hpop : ¬ isEmptyPop p.pop) (hlt : p.lastClaimDay < env.today) :
    tryUbiClaim env silent frm s = ubiMint env frm st p s := by
  simp [tryUbiClaim, hstat, hp, hg, hpop, hlt]

/-- Claim C9: whenever the reputation record's last_claim_day is at or past
    today, UBI settlement leaves the state unchanged; in particular running
    the settlement twice in a row changes nothing the second time. -/
theorem ubi_settlement_idempotent (env : Env) (silent : Bool) (frm : Nat)
    (s : OliveState) (htoday : env.today < 65536) :
    (∀ p, tlookup s.persons frm = some p → env.today ≤ p.lastClaimDay →
      tryUbiClaim env silent frm s = s) ∧
    tryUbiClaim env silent frm (tryUbiClaim env silent frm s)
      = tryUbiClaim env silent frm s := by
  refine ⟨fun p hp hlast =>
    tryUbiClaim_noop env silent frm s
      (Or.inr (Or.inr ⟨p, hp, Or.inr (Or.inr hlast)⟩)), ?_⟩
  cases hstat : s.stat with
  | none =>
    have h0 := tryUbiClaim_noop env silent frm s (Or.inl hstat)
    rw [h0]
    exact h0
  | some st =>
    cases hp : tlookup s.persons frm with
    | none =>
      have h0 := tryUbiClaim_noop env silent frm s (Or.inr (Or.inl hp))
      rw [h0]
      exact h0
    | some p =>
      by_cases hg1 : p.score ≤ 0 ∧ silent = false
      · have h0 := tryUbiClaim_noop env silent frm s
          (Or.inr (Or.inr ⟨p, hp, Or.inl hg1⟩))
        rw [h0]
        exact h0
      by_cases hg2 : isEmptyPop p.pop
      · have h0 := tryUbiClaim_noop env silent frm s
          (Or.inr (Or.inr ⟨p, hp, Or.inr (Or.inl hg2)⟩))
        rw [h0]
        exact h0
      by_cases hg3 : p.lastClaimDay < env.today
      case neg =>
        have h0 := tryUbiClaim_noop env silent frm s
          (Or.inr (Or.inr ⟨p, hp, Or.inr (Or.inr (not_lt.mp hg3))⟩))
        rw [h0]
        exact h0
      case pos =>
        set pending := env.today - p.lastClaimDay - 1 with hpend
        set lost := pending - 360 with hlost
        set days := min pending 360 with hdays
        set capped := min (((days : Int) + 1) * (pmulNat env : Int))
          (st.maxSupply - st.supply) with hcap
        have hmint := tryUbiClaim_eq_mint env silent frm s st p hstat hp hg1 hg2 hg3
        obtain ⟨hno, hyes⟩ :=
          ubiMint_spec env frm st p s pending lost days capped hg3 htoday
            hpend hlost hdays hcap
        by_cases hcappos : 0 < capped
        case neg =>
          have h0 : tryUbiClaim env silent frm s = s := by
            rw [hmint, hno (le_of_not_lt hcappos)]
          rw [h0]
          exact h0
        case pos =>
          rw [hmint, hyes hcappos]
          have hstatT : (addBalance frm capped
              { s with stat := some { st with supply := st.supply + capped },
                       persons := tset s.persons frm
                         (⟨p.score,
                           p.lastClaimDay + (lost + capped.toNat / pmulNat env),
                           p.pop⟩ : Person) }).stat
              = some { st with supply := st.supply + capped } := by
            rw [addBalance_stat]
          have hpT : tlookup (addBalance frm capped
              { s with stat := some { st with supply := st.supply + capped },
                       persons := tset s.persons frm
                         (⟨p.score,
                           p.lastClaimDay + (lost + capped.toNat / pmulNat env),
                           p.pop⟩ : Person) }).persons frm
              = some ⟨p.score,
                  p.lastClaimDay + (lost + capped.toNat / pmulNat env), p.pop⟩ := by
            rw [addBalance_persons]
            exact tlookup_tset_self _ _ _
          by_cases hAB : st.maxSupply - st.supply
              < ((days : Int) + 1) * (pmulNat env : Int)
          · -- the cap was hit: the supply is now exactly max_supply, so the
            -- second settlement mints nothing
            have hcapeq : capped = st.maxSupply - st.supply := by
              rw [hcap, min_eq_right (le_of_lt hAB)]
            by_cases hlt2 : p.lastClaimDay + (lost + capped.toNat / pmulNat env)
                < env.today
            · have hmint2 := tryUbiClaim_eq_mint env silent frm _ _ _ hstatT hpT
                hg1 hg2 hlt2
              obtain ⟨hno2, _⟩ :=
                ubiMint_spec env frm { st with supply := st.supply + capped }
                  ⟨p.score, p.lastClaimDay + (lost + capped.toNat / pmulNat env),
                    p.pop⟩
                  (addBalance frm capped
                    { s with stat := some { st with supply := st.supply + capped },
                             persons := tset s.persons frm
                               (⟨p.score,
                                 p.lastClaimDay
                                   + (lost + capped.toNat / pmulNat env),
                                 p.pop⟩ : Person) })
                  _ _ _ _ hlt2 htoday rfl rfl rfl rfl
              rw [hmint2, hno2 ?hle]
              case hle =>
                have hz : st.maxSupply - (st.supply + capped) = 0 := by
                  rw [hcapeq]
                  ring
                exact le_trans (min_le_right _ _) (le_of_eq hz)
            · exact tryUbiClaim_noop env silent frm _
                (Or.inr (Or.inr ⟨_, hpT, Or.inr (Or.inr (not_lt.mp hlt2))⟩))
          · -- no cap: the pointer lands exactly on today
            have hcapeq : capped = ((days : Int) + 1) * (pmulNat env : Int) := by
              rw [hcap, min_eq_left (not_lt.mp hAB)]
            have h1 : capped.toNat = (days + 1) * pmulNat env := by
              rw [hcapeq]
              have hcast : ((days : Int) + 1) * (pmulNat env : Int)
                  = (((days + 1) * pmulNat env : Nat) : Int) := by
                push_cast
                ring
              rw [hcast, Int.toNat_natCast]
            have h2 : capped.toNat / pmulNat env = days + 1 := by
              rw [h1, Nat.mul_div_cancel _ (pmulNat_pos env)]
            have hlast2 : p.lastClaimDay + (lost + capped.toNat / pmulNat env)
                = env.today := by
              rw [h2]
              omega
            exact tryUbiClaim_noop env silent frm _
              (Or.inr (Or.inr ⟨_, hpT, Or.inr (Or.inr (le_of_eq hlast2.symm))⟩))

/-- Witness for C9 at a concrete state on which the first settlement mints. -/
theorem ubi_settlement_idempotent_witness :
    tryUbiClaim ⟨1, 100, 4, [2], fun _ => true⟩ false 2
        (tryUbiClaim ⟨1, 100, 4, [2], fun _ => true⟩ false 2
          ⟨some ⟨50, 10000000, 1⟩, [(2, 50)], [(2, ⟨10000, 89, "x"⟩)]⟩)
      = tryUbiClaim ⟨1, 100, 4, [2], fun _ => true⟩ false 2
          ⟨some ⟨50, 10000000, 1⟩, [(2, 50)], [(2, ⟨10000, 89, "x"⟩)]⟩ :=
  (ubi_settlement_idempotent ⟨1, 100, 4, [2], fun _ => true⟩ false 2
    ⟨some ⟨50, 10000000, 1⟩, [(2, 50)], [(2, ⟨10000, 89, "x"⟩)]⟩ (by decide)).2

end Olive
